import Mathlib

/-!
Shallow embedding of `src/parsers/modbus_parser/parser.py` (class `ModbusParser`).

Bytes are modelled as `Nat` (each real wire byte is `< 256`; the arithmetic
below matches Python's on that range).  Python byte-string slicing
`packet[a:b]` becomes `(packet.drop a).take (b - a)` — both are empty when
`b ≤ a`, and both stop at the end of the list, so the translation is exact.
Python dicts returned by the parser become inductive/structure types; the
statistics dict keeps its source shape: `get_statistics` returns only
`{'transaction_count': 0}` when no packet has been stored.
-/

namespace Modbus

/-- The `FUNCTION_CODES` table at the top of `parser.py`. -/
def FUNCTION_CODES : List (Nat × String) :=
  [(1, "Read Coils"),
   (2, "Read Discrete Inputs"),
   (3, "Read Holding Registers"),
   (4, "Read Input Registers"),
   (5, "Write Single Coil"),
   (6, "Write Single Register"),
   (15, "Write Multiple Coils"),
   (16, "Write Multiple Registers"),
   (43, "Read Device Identification")]

/-- `FUNCTION_CODES.get(function_code, f"Unknown ({function_code})")`. -/
def functionName (function_code : Nat) : String :=
  ((FUNCTION_CODES.lookup function_code).getD
    ("Unknown (" ++ toString function_code ++ ")"))

/-- `payload[offset:offset+object_len].decode('ascii', errors='replace')`:
bytes below 128 decode to themselves, all others to U+FFFD (the replacement
character).  We keep the decoded text as its list of code points. -/
def asciiReplace (bs : List Nat) : List Nat :=
  bs.map (fun b => if b < 128 then b else 0xFFFD)

/-- Result of `ModbusParser._parse_function`: one constructor per dict shape
the Python function can return. -/
inductive Payload where
  /-- codes 1–4: `{'byte_count': ..., 'values': ...}` -/
  | readResponse (byte_count : Nat) (values : List Nat)
  /-- codes 5–6: `{'address': ..., 'value': ...}` -/
  | writeSingle (address value : Nat)
  /-- codes 15–16: `{'address': ..., 'quantity': ...}` -/
  | writeMultiple (address quantity : Nat)
  /-- code 43: device identification dict with its decoded `objects` list -/
  | deviceId (mei_type reading_device_id conformity_level more_follows
      next_object_id : Nat) (objects : List (Nat × List Nat))
  /-- unknown function code: `{'raw': payload.hex()}` (kept as bytes) -/
  | unknownRaw (raw : List Nat)
  /-- `{'error': msg}` -/
  | malformed (msg : String)
deriving DecidableEq, Repr

/-- Whether a decode result is the `{'error': ...}` dict. -/
def Payload.isMalformed : Payload → Bool
  | .malformed _ => true
  | _ => false

/-- Codes 1,2 value loop:
`for i in range(1, min(1 + byte_count, len(payload))):`
`  for bit in range(8):`
`    if (i - 1) * 8 + bit < byte_count * 8: values.append((payload[i] >> bit) & 1)`. -/
def bitValues (payload : List Nat) (byte_count : Nat) : List Nat :=
  (List.range' 1 (min (1 + byte_count) payload.length - 1)).flatMap
    (fun i => (List.range 8).filterMap
      (fun bit =>
        if (i - 1) * 8 + bit < byte_count * 8 then
          some ((payload.getD i 0 >>> bit) &&& 1)
        else none))

/-- Codes 3,4 value loop:
`for i in range(1, min(1 + byte_count, len(payload)), 2):`
`  if i + 1 < len(payload): values.append((payload[i] << 8) | payload[i+1])`.
`range(1, stop, 2)` has `stop / 2` elements (rounding down, empty when
`stop ≤ 1`), which `List.range' 1 (stop / 2) 2` reproduces. -/
def wordValues (payload : List Nat) (byte_count : Nat) : List Nat :=
  (List.range' 1 (min (1 + byte_count) payload.length / 2) 2).filterMap
    (fun i =>
      if i + 1 < payload.length then
        some ((payload.getD i 0 <<< 8) ||| payload.getD (i + 1) 0)
      else none)

/-- The code-43 object loop (`for _ in range(object_count): ...`), recursion
on the remaining iteration count, `offset` threaded as in the source:
read `object_id`/`object_len` at `offset`/`offset+1` (breaking when
`offset + 1 >= len(payload)`), advance by 2, break when
`offset + object_len > len(payload)`, else slice the value and advance. -/
def parseObjects (payload : List Nat) : Nat → Nat → List (Nat × List Nat)
  | _, 0 => []
  | offset, k + 1 =>
    if payload.length ≤ offset + 1 then []
    else if payload.length < offset + 2 + payload.getD (offset + 1) 0 then []
    else
      (payload.getD offset 0,
       asciiReplace
         ((payload.drop (offset + 2)).take (payload.getD (offset + 1) 0))) ::
        parseObjects payload (offset + 2 + payload.getD (offset + 1) 0) k

/-- `ModbusParser._parse_function` (the `try` body; nothing in it can raise,
so the `except` branch is dead). -/
def parseFunction (function_code : Nat) (payload : List Nat) : Payload :=
  if function_code = 1 ∨ function_code = 2 ∨ function_code = 3 ∨ function_code = 4 then
    if payload.length < 1 then .malformed ("Payload too short for read response")
    else
      let byte_count := payload.getD 0 0
      if function_code = 1 ∨ function_code = 2 then
        .readResponse byte_count (bitValues payload byte_count)
      else
        .readResponse byte_count (wordValues payload byte_count)
  else if function_code = 5 ∨ function_code = 6 then
    if payload.length < 4 then .malformed ("Payload too short for write single response")
    else
      let address := (payload.getD 0 0 <<< 8) ||| payload.getD 1 0
      let value := (payload.getD 2 0 <<< 8) ||| payload.getD 3 0
      let value := if function_code = 5 then (if value = 0xFF00 then 1 else 0) else value
      .writeSingle address value
  else if function_code = 15 ∨ function_code = 16 then
    if payload.length < 4 then .malformed ("Payload too short for write multiple response")
    else
      .writeMultiple ((payload.getD 0 0 <<< 8) ||| payload.getD 1 0)
        ((payload.getD 2 0 <<< 8) ||| payload.getD 3 0)
  else if function_code = 43 then
    if payload.length < 6 then .malformed ("Payload too short for device identification")
    else
      .deviceId (payload.getD 0 0) (payload.getD 1 0) (payload.getD 2 0)
        (payload.getD 3 0) (payload.getD 4 0)
        (parseObjects payload 6 (payload.getD 5 0))
  else .unknownRaw payload

/-- The dict built by `parse_packet` and appended to `self.packets`
(`raw_data` keeps the frame bytes; the source stores their hex rendering). -/
structure ParsedPacket where
  transaction_id : Nat
  protocol_id : Nat
  length : Nat
  unit_id : Nat
  function_code : Nat
  function_name : String
  payload : Payload
  raw_data : List Nat
deriving DecidableEq, Repr

/-- `ModbusParser.__init__` state: `self.transaction_count`, `self.packets`. -/
structure ParserState where
  transaction_count : Nat
  packets : List ParsedPacket
deriving DecidableEq, Repr

/-- A fresh `ModbusParser()`. -/
def initState : ParserState := ⟨0, []⟩

/-- What `parse_packet` returns: `None` after the too-short warning, `None`
after the invalid-protocol-id warning, or the parsed dict. -/
inductive ParseResult where
  | tooShort
  | invalidProtocolId
  | parsed (p : ParsedPacket)
deriving DecidableEq, Repr

/-- Header field `protocol_id = (packet[2] << 8) | packet[3]`. -/
def protocolId (packet : List Nat) : Nat :=
  (packet.getD 2 0 <<< 8) ||| packet.getD 3 0

/-- Header field `length = (packet[4] << 8) | packet[5]`. -/
def declaredLength (packet : List Nat) : Nat :=
  (packet.getD 4 0 <<< 8) ||| packet.getD 5 0

/-- `payload = packet[8:8+length-2] if 8+length-2 <= len(packet) else packet[8:]`.
Python's `8+length-2` never goes below 6, so plain `Nat` arithmetic agrees;
the slice `packet[8:8+length-2]` has `max 0 (length-2)` elements when it fits,
which `take (8 + length - 2 - 8)` (truncated subtraction) reproduces. -/
def payloadSlice (packet : List Nat) : List Nat :=
  if 8 + declaredLength packet - 2 ≤ packet.length then
    (packet.drop 8).take (8 + declaredLength packet - 2 - 8)
  else packet.drop 8

/-- The `parsed_packet` dict literal built in `parse_packet` (the header
fields are the big-endian reads at offsets 0, 2, 4, 6, 7 bound by `let`s in
the source). -/
def mkParsedPacket (packet : List Nat) : ParsedPacket :=
  { transaction_id := (packet.getD 0 0 <<< 8) ||| packet.getD 1 0
    protocol_id := protocolId packet
    length := declaredLength packet
    unit_id := packet.getD 6 0
    function_code := packet.getD 7 0
    function_name := functionName (packet.getD 7 0)
    payload := parseFunction (packet.getD 7 0) (payloadSlice packet)
    raw_data := packet }

/-- `ModbusParser.parse_packet`, returning the Python return value and the
updated object state.  Nothing in the `try` body can raise (`_parse_function`
catches internally and dict/hex construction is total), so the broad
`except` branch is dead and not modelled.  Note the source increments
`self.transaction_count` and appends to `self.packets` unconditionally once
the header checks pass, whatever `_parse_function` returned. -/
def parsePacket (st : ParserState) (packet : List Nat) : ParseResult × ParserState :=
  if packet.length < 8 then (.tooShort, st)
  else if protocolId packet ≠ 0 then (.invalidProtocolId, st)
  else
    (.parsed (mkParsedPacket packet),
     ⟨st.transaction_count + 1, st.packets ++ [mkParsedPacket packet]⟩)

/-- Run a sequence of `parse_packet` calls on one parser instance. -/
def runFrames (frames : List (List Nat)) : ParserState :=
  frames.foldl (fun st f => (parsePacket st f).2) initState

/-- `function_counts[fc] = function_counts.get(fc, 0) + 1` on a dict kept as
an association list in insertion order. -/
def bump : List (Nat × Nat) → Nat → List (Nat × Nat)
  | [], fc => [(fc, 1)]
  | (k, v) :: rest, fc =>
    if k = fc then (k, v + 1) :: rest else (k, v) :: bump rest fc

/-- `unit_ids.add(u)` on a set kept as a duplicate-free list. -/
def insertUnit (us : List Nat) (u : Nat) : List Nat :=
  if u ∈ us then us else us ++ [u]

/-- `fc in [1, 2, 3, 4]` in `get_statistics`. -/
def readCodes : List Nat := [1, 2, 3, 4]

/-- `fc in [5, 6, 15, 16]` in `get_statistics`. -/
def writeCodes : List Nat := [5, 6, 15, 16]

/-- Accumulator of the `for packet in self.packets` loop in `get_statistics`. -/
structure StatsAcc where
  counts : List (Nat × Nat)
  units : List Nat
  reads : Nat
  writes : Nat
deriving DecidableEq, Repr

/-- One iteration of the statistics loop (note the `elif`: a packet counts
toward `write_operations` only when its code is not a read code). -/
def recordStep (acc : StatsAcc) (p : ParsedPacket) : StatsAcc :=
  let acc := { acc with
    counts := bump acc.counts p.function_code
    units := insertUnit acc.units p.unit_id }
  if p.function_code ∈ readCodes then { acc with reads := acc.reads + 1 }
  else if p.function_code ∈ writeCodes then { acc with writes := acc.writes + 1 }
  else acc

/-- Result of `get_statistics`: the source returns the bare
`{'transaction_count': 0}` dict when `self.packets` is empty, and the full
five-field dict otherwise. -/
inductive Stats where
  | countOnly (transaction_count : Nat)
  | full (transaction_count : Nat) (function_codes : List (Nat × Nat))
      (unit_ids : List Nat) (read_operations write_operations : Nat)
deriving DecidableEq, Repr

/-- `ModbusParser.get_statistics`. -/
def getStatistics (st : ParserState) : Stats :=
  if st.packets = [] then .countOnly 0
  else
    let acc := st.packets.foldl recordStep ⟨[], [], 0, 0⟩
    .full st.transaction_count acc.counts acc.units acc.reads acc.writes

/-- The `transaction_count` entry of a statistics snapshot. -/
def Stats.transactionCount : Stats → Nat
  | .countOnly n => n
  | .full n _ _ _ _ => n

/-- Sum of the per-function-code counts (0 when the snapshot has no
`function_codes` entry). -/
def Stats.fcSum : Stats → Nat
  | .countOnly _ => 0
  | .full _ fcs _ _ _ => (fcs.map Prod.snd).sum

/-- The `read_operations` entry (0 when absent). -/
def Stats.readOps : Stats → Nat
  | .countOnly _ => 0
  | .full _ _ _ r _ => r

/-- The `write_operations` entry (0 when absent). -/
def Stats.writeOps : Stats → Nat
  | .countOnly _ => 0
  | .full _ _ _ _ w => w

/-- Whether the snapshot carries all five documented fields
(`transaction_count, function_codes, unit_ids, read_operations,
write_operations`). -/
def Stats.hasAllFields : Stats → Bool
  | .countOnly _ => false
  | .full _ _ _ _ _ => true

/-- Total byte length accounted to the decoded device-identification
objects: two header bytes (id, length) plus the value bytes, per fully
decoded object. -/
def objectBytes (objs : List (Nat × List Nat)) : Nat :=
  (objs.map (fun o => 2 + o.2.length)).sum

/-- Modelled from the spec: the store invariant's `payload_byte_length`,
"the number of payload bytes actually consumed for that function family
(or the raw remainder, for `Unknown`/`Malformed`)", made explicit per
family from the decode rules: codes 1/2 consume the `byte_count` byte plus
every data byte the bit loop reads (`min (1 + byte_count) len` bytes in
all); codes 3/4 consume the `byte_count` byte plus two bytes per decoded
word, the odd straggler byte being ignored; codes 5/6 and 15/16 consume
exactly 4 bytes; code 43 consumes the 6 fixed header bytes plus two header
bytes and the value bytes of each fully decoded object (an object
abandoned at the overrun check counts nothing); an unknown code or a
too-short (`Malformed`) payload keeps the raw remainder, the whole
payload. -/
def consumedBytes (function_code : Nat) (payload : List Nat) : Nat :=
  if function_code = 1 ∨ function_code = 2 ∨ function_code = 3 ∨ function_code = 4 then
    if payload.length < 1 then payload.length
    else if function_code = 1 ∨ function_code = 2 then
      min (1 + payload.getD 0 0) payload.length
    else 1 + 2 * (wordValues payload (payload.getD 0 0)).length
  else if function_code = 5 ∨ function_code = 6 then
    if payload.length < 4 then payload.length else 4
  else if function_code = 15 ∨ function_code = 16 then
    if payload.length < 4 then payload.length else 4
  else if function_code = 43 then
    if payload.length < 6 then payload.length
    else 6 + objectBytes (parseObjects payload 6 (payload.getD 5 0))
  else payload.length

end Modbus

namespace Modbus

/-- Once the length and protocol-id checks pass, `parse_packet` always
stores the constructed dict and increments the counter. -/
theorem parsePacket_success (st : ParserState) (packet : List Nat)
    (h8 : 8 ≤ packet.length) (hp : protocolId packet = 0) :
    parsePacket st packet =
      (.parsed (mkParsedPacket packet),
       ⟨st.transaction_count + 1, st.packets ++ [mkParsedPacket packet]⟩) := by
  unfold parsePacket
  rw [if_neg (by omega), if_neg (by simp [hp])]

/-- Claim C3: for every input frame of at least 8 bytes with a nonzero
protocol id, `parse_packet` takes the invalid-protocol-id rejection path,
returns no parsed packet, and leaves the packet list and
`transaction_count` unchanged. -/
theorem c3_invalid_protocol_rejected (st : ParserState) (packet : List Nat)
    (h8 : 8 ≤ packet.length) (hp : protocolId packet ≠ 0) :
    parsePacket st packet = (.invalidProtocolId, st) := by
  unfold parsePacket
  rw [if_neg (by omega), if_pos hp]

/-- Witness for C3 at the concrete frame `00 01 00 01 00 06 01 03`
(protocol id 1). -/
theorem c3_witness :
    8 ≤ ([0, 1, 0, 1, 0, 6, 1, 3] : List Nat).length ∧
    protocolId [0, 1, 0, 1, 0, 6, 1, 3] ≠ 0 ∧
    parsePacket initState [0, 1, 0, 1, 0, 6, 1, 3] = (.invalidProtocolId, initState) :=
  ⟨by decide, by decide,
   c3_invalid_protocol_rejected initState _ (by decide) (by decide)⟩

/-- Claim C4: the concrete frame `00 01 00 00 00 07 01 03 04 00 01 00 FF`
parses to header `transaction_id = 1`, `protocol_id = 0`, `length = 7`,
`unit_id = 1`, `function_code = 3`, with payload `byte_count = 4` and
values `[1, 255]`. -/
theorem c4_scenario_read_holding :
    (parsePacket initState [0, 1, 0, 0, 0, 7, 1, 3, 4, 0, 1, 0, 255]).1 =
      .parsed
        { transaction_id := 1
          protocol_id := 0
          length := 7
          unit_id := 1
          function_code := 3
          function_name := "Read Holding Registers"
          payload := .readResponse 4 [1, 255]
          raw_data := [0, 1, 0, 0, 0, 7, 1, 3, 4, 0, 1, 0, 255] } := by
  rfl

/-- Claim C10: when the declared length field claims more bytes than the
frame holds (`8 + length - 2 > frame size`) on a valid-protocol frame of at
least 8 bytes, `parse_packet` silently uses the raw remainder `packet[8:]`
as the payload, still stores a transaction, increments the counter, and
reports no frame-level error. -/
theorem c10_overlong_length_falls_back (st : ParserState) (packet : List Nat)
    (h8 : 8 ≤ packet.length) (hp : protocolId packet = 0)
    (hover : packet.length < 8 + declaredLength packet - 2) :
    payloadSlice packet = packet.drop 8 ∧
    parsePacket st packet =
      (.parsed (mkParsedPacket packet),
       ⟨st.transaction_count + 1, st.packets ++ [mkParsedPacket packet]⟩) ∧
    (mkParsedPacket packet).payload =
      parseFunction (packet.getD 7 0) (packet.drop 8) ∧
    (mkParsedPacket packet).length = declaredLength packet := by
  have hs : payloadSlice packet = packet.drop 8 := by
    unfold payloadSlice
    rw [if_neg (by omega)]
  refine ⟨hs, parsePacket_success st packet h8 hp, ?_, rfl⟩
  show parseFunction (packet.getD 7 0) (payloadSlice packet) = _
  rw [hs]

/-- Witness for C10 at a frame whose declared length 100 exceeds the 13
bytes present. -/
theorem c10_witness :
    8 ≤ ([0, 1, 0, 0, 0, 100, 1, 3, 4, 0, 1, 0, 255] : List Nat).length ∧
    protocolId [0, 1, 0, 0, 0, 100, 1, 3, 4, 0, 1, 0, 255] = 0 ∧
    ([0, 1, 0, 0, 0, 100, 1, 3, 4, 0, 1, 0, 255] : List Nat).length <
      8 + declaredLength [0, 1, 0, 0, 0, 100, 1, 3, 4, 0, 1, 0, 255] - 2 ∧
    (payloadSlice [0, 1, 0, 0, 0, 100, 1, 3, 4, 0, 1, 0, 255] =
      ([0, 1, 0, 0, 0, 100, 1, 3, 4, 0, 1, 0, 255] : List Nat).drop 8 ∧
     parsePacket initState [0, 1, 0, 0, 0, 100, 1, 3, 4, 0, 1, 0, 255] =
      (.parsed (mkParsedPacket [0, 1, 0, 0, 0, 100, 1, 3, 4, 0, 1, 0, 255]),
       ⟨initState.transaction_count + 1,
        initState.packets ++ [mkParsedPacket [0, 1, 0, 0, 0, 100, 1, 3, 4, 0, 1, 0, 255]]⟩) ∧
     (mkParsedPacket [0, 1, 0, 0, 0, 100, 1, 3, 4, 0, 1, 0, 255]).payload =
      parseFunction (([0, 1, 0, 0, 0, 100, 1, 3, 4, 0, 1, 0, 255] : List Nat).getD 7 0)
        (([0, 1, 0, 0, 0, 100, 1, 3, 4, 0, 1, 0, 255] : List Nat).drop 8) ∧
     (mkParsedPacket [0, 1, 0, 0, 0, 100, 1, 3, 4, 0, 1, 0, 255]).length =
      declaredLength [0, 1, 0, 0, 0, 100, 1, 3, 4, 0, 1, 0, 255]) :=
  ⟨by decide, by decide, by decide,
   c10_overlong_length_falls_back initState _ (by decide) (by decide) (by decide)⟩

/-- Counterexample to claim C1 as stated: the 8-byte frame
`00 01 00 00 00 02 01 03` (function code 3, empty payload) decodes to the
`{'error': ...}` payload, yet the statistics after parsing it count it in
`transaction_count`, `function_codes`, `unit_ids` and `read_operations`. -/
theorem c1_counterexample :
    (mkParsedPacket [0, 1, 0, 0, 0, 2, 1, 3]).payload.isMalformed = true ∧
    getStatistics (parsePacket initState [0, 1, 0, 0, 0, 2, 1, 3]).2 =
      .full 1 [(3, 1)] [1] 1 0 :=
  ⟨rfl, rfl⟩

/-- Claim C1, amended: a frame of at least 8 bytes with protocol id 0 whose
payload decoding produced a `Malformed`/error result is nevertheless stored
and counted: `transaction_count` is incremented and the stored packet
contributes its function code and unit id to the statistics like any
successfully decoded frame.  Only frames rejected before payload decoding
(shorter than 8 bytes, or nonzero protocol id) contribute nothing. -/
theorem c1_malformed_frames_still_counted (st : ParserState) (packet : List Nat)
    (h8 : 8 ≤ packet.length) (hp : protocolId packet = 0)
    (hm : (parseFunction (packet.getD 7 0) (payloadSlice packet)).isMalformed = true) :
    (parsePacket st packet).2.transaction_count = st.transaction_count + 1 ∧
    (parsePacket st packet).2.packets = st.packets ++ [mkParsedPacket packet] ∧
    (mkParsedPacket packet).payload.isMalformed = true ∧
    (mkParsedPacket packet).function_code = packet.getD 7 0 ∧
    (mkParsedPacket packet).unit_id = packet.getD 6 0 := by
  rw [parsePacket_success st packet h8 hp]
  exact ⟨rfl, rfl, hm, rfl, rfl⟩

/-- Witness for the amended C1 at the malformed frame
`00 01 00 00 00 02 01 03`. -/
theorem c1_witness :
    8 ≤ ([0, 1, 0, 0, 0, 2, 1, 3] : List Nat).length ∧
    protocolId [0, 1, 0, 0, 0, 2, 1, 3] = 0 ∧
    (parseFunction (([0, 1, 0, 0, 0, 2, 1, 3] : List Nat).getD 7 0)
      (payloadSlice [0, 1, 0, 0, 0, 2, 1, 3])).isMalformed = true ∧
    ((parsePacket initState [0, 1, 0, 0, 0, 2, 1, 3]).2.transaction_count =
       initState.transaction_count + 1 ∧
     (parsePacket initState [0, 1, 0, 0, 0, 2, 1, 3]).2.packets =
       initState.packets ++ [mkParsedPacket [0, 1, 0, 0, 0, 2, 1, 3]] ∧
     (mkParsedPacket [0, 1, 0, 0, 0, 2, 1, 3]).payload.isMalformed = true ∧
     (mkParsedPacket [0, 1, 0, 0, 0, 2, 1, 3]).function_code =
       ([0, 1, 0, 0, 0, 2, 1, 3] : List Nat).getD 7 0 ∧
     (mkParsedPacket [0, 1, 0, 0, 0, 2, 1, 3]).unit_id =
       ([0, 1, 0, 0, 0, 2, 1, 3] : List Nat).getD 6 0) :=
  ⟨by decide, by decide, by decide,
   c1_malformed_frames_still_counted initState _ (by decide) (by decide) (by decide)⟩


end Modbus

namespace Modbus

/-- A `filterMap` whose guard holds on every element is a `map`. -/
theorem filterMap_if_true {α β : Type} (l : List α) (p : α → Prop)
    [DecidablePred p] (f : α → β) (h : ∀ a ∈ l, p a) :
    (l.filterMap fun a => if p a then some (f a) else none) = l.map f := by
  induction l with
  | nil => rfl
  | cons x xs ih =>
    rw [List.filterMap_cons, List.map_cons, if_pos (h x (List.mem_cons_self x xs)),
      ih (fun a ha => h a (List.mem_cons_of_mem x ha))]

/-- An in-bounds slice, read as the list of its indexed elements. -/
theorem drop_take_eq_map_range' (l : List Nat) (s n : Nat)
    (h : s + n ≤ l.length) :
    (l.drop s).take n = (List.range' s n).map (fun i => l.getD i 0) := by
  apply List.ext_getElem
  · simp only [List.length_take, List.length_drop, List.length_map,
      List.length_range']
    omega
  · intro i h₁ h₂
    have hi : i < n := by
      simp only [List.length_take, List.length_drop] at h₁
      omega
    have hsi : s + i < l.length := by omega
    rw [List.getElem_take, List.getElem_drop, List.getElem_map,
      List.getElem_range', List.getD_eq_getElem l 0 (by omega : s + 1 * i < l.length)]
    simp only [Nat.one_mul]

/-- On a payload long enough for its declared `byte_count`, the codes-1/2
loop unpacks exactly bytes `1 .. byte_count` least-significant-bit first. -/
theorem bitValues_eq (payload : List Nat) (bc : Nat)
    (h : 1 + bc ≤ payload.length) :
    bitValues payload bc =
      ((payload.drop 1).take bc).flatMap
        (fun b => (List.range 8).map (fun bit => (b >>> bit) &&& 1)) := by
  unfold bitValues
  rw [min_eq_left h, (by omega : 1 + bc - 1 = bc),
    drop_take_eq_map_range' payload 1 bc (by omega), List.flatMap_map]
  apply List.flatMap_congr
  intro i hi
  rw [List.mem_range'] at hi
  obtain ⟨j, hj, rfl⟩ := hi
  apply filterMap_if_true
  intro bit hbit
  rw [List.mem_range] at hbit
  omega

/-- Summing a constant-valued map. -/
theorem sum_map_const_eight {α : Type} (l : List α) :
    (l.map (fun _ => (8 : Nat))).sum = l.length * 8 := by
  induction l with
  | nil => rfl
  | cons x xs ih => simp only [List.map_cons, List.sum_cons, List.length_cons, ih]; omega

/-- On a payload long enough for its declared `byte_count`, the codes-1/2
loop produces exactly `byte_count * 8` bit values. -/
theorem bitValues_length (payload : List Nat) (bc : Nat)
    (h : 1 + bc ≤ payload.length) :
    (bitValues payload bc).length = bc * 8 := by
  rw [bitValues_eq payload bc h, List.length_flatMap]
  simp only [Function.comp_def, List.length_map, List.length_range]
  rw [sum_map_const_eight, List.length_take, List.length_drop]
  omega

/-- Counterexample to claim C5 as stated: for function code 1 with payload
`[2, 0xFF]` the declared `byte_count` is 2 but only one data byte is
present, and the decoded bit vector has 8 entries, not `2 * 8 = 16`. -/
theorem c5_counterexample :
    parseFunction 1 [2, 255] = .readResponse 2 [1, 1, 1, 1, 1, 1, 1, 1] ∧
    ([1, 1, 1, 1, 1, 1, 1, 1] : List Nat).length ≠ 2 * 8 :=
  ⟨rfl, by decide⟩

/-- Claim C5, amended: for function codes 1 and 2, when the payload holds
at least `1 + byte_count` bytes (`byte_count` being its first byte), the
decoded bit vector is exactly the `byte_count` data bytes after the first
unpacked least-significant-bit first — `byte_count * 8` entries, with no
trimming to a requested quantity.  On shorter payloads only the bytes
actually present are unpacked (8 bits per available data byte). -/
theorem c5_bits_lsb_first (function_code : Nat) (payload : List Nat)
    (hfc : function_code = 1 ∨ function_code = 2)
    (h : 1 + payload.getD 0 0 ≤ payload.length) :
    parseFunction function_code payload =
      .readResponse (payload.getD 0 0)
        (((payload.drop 1).take (payload.getD 0 0)).flatMap
          (fun b => (List.range 8).map (fun bit => (b >>> bit) &&& 1))) ∧
    (bitValues payload (payload.getD 0 0)).length = payload.getD 0 0 * 8 := by
  have h1 : ¬ payload.length < 1 := by omega
  refine ⟨?_, bitValues_length payload (payload.getD 0 0) h⟩
  rw [← bitValues_eq payload (payload.getD 0 0) h]
  rcases hfc with rfl | rfl <;> simp [parseFunction, h1]

/-- Witness for the amended C5 at function code 1, payload `[1, 0xA5]`. -/
theorem c5_witness :
    ((1 : Nat) = 1 ∨ (1 : Nat) = 2) ∧
    1 + ([1, 165] : List Nat).getD 0 0 ≤ ([1, 165] : List Nat).length ∧
    (parseFunction 1 [1, 165] =
       .readResponse (([1, 165] : List Nat).getD 0 0)
         (((([1, 165] : List Nat).drop 1).take (([1, 165] : List Nat).getD 0 0)).flatMap
           (fun b => (List.range 8).map (fun bit => (b >>> bit) &&& 1))) ∧
     (bitValues [1, 165] (([1, 165] : List Nat).getD 0 0)).length =
       ([1, 165] : List Nat).getD 0 0 * 8) :=
  ⟨Or.inl rfl, by decide, c5_bits_lsb_first 1 [1, 165] (Or.inl rfl) (by decide)⟩

/-- Counterexample to claim C7 as stated: a fresh parser's statistics
snapshot is the bare `{'transaction_count': 0}` dict, missing the
`function_codes`, `unit_ids`, `read_operations` and `write_operations`
fields. -/
theorem c7_counterexample :
    getStatistics initState = .countOnly 0 ∧
    (getStatistics initState).hasAllFields = false :=
  ⟨rfl, rfl⟩

/-- Claim C7, amended: `get_statistics` returns the five-field snapshot
exactly when at least one packet has been stored; on an empty store
(including a fresh parser) it returns only `{'transaction_count': 0}`. -/
theorem c7_all_fields_when_nonempty (st : ParserState)
    (h : st.packets ≠ []) :
    (getStatistics st).hasAllFields = true := by
  unfold getStatistics
  rw [if_neg h]
  rfl

/-- Witness for the amended C7 at the state reached after parsing the
scenario-A frame. -/
theorem c7_witness :
    (parsePacket initState [0, 1, 0, 0, 0, 7, 1, 3, 4, 0, 1, 0, 255]).2.packets ≠ [] ∧
    (getStatistics (parsePacket initState [0, 1, 0, 0, 0, 7, 1, 3, 4, 0, 1, 0, 255]).2).hasAllFields = true :=
  ⟨by decide, c7_all_fields_when_nonempty _ (by decide)⟩

/-- The value `parse_packet` returns for a frame does not depend on the
parser state it is called on (each frame is decoded independently). -/
theorem parsePacket_fst_state_independent (st₁ st₂ : ParserState)
    (frame : List Nat) :
    (parsePacket st₁ frame).1 = (parsePacket st₂ frame).1 := by
  unfold parsePacket
  by_cases h8 : frame.length < 8
  · rw [if_pos h8, if_pos h8]
  · rw [if_neg h8, if_neg h8]
    by_cases hp : protocolId frame ≠ 0
    · rw [if_pos hp, if_pos hp]
    · rw [if_neg hp, if_neg hp]

/-- Claim C9: a payload shorter than its function family requires decodes
to the `{'error': ...}` (Malformed) dict — no exception exists in the
model, every branch returns a value — and the per-frame decode is
independent of accumulated parser state, so subsequent frames are decoded
normally. -/
theorem c9_short_payload_malformed_and_parser_continues
    (function_code : Nat) (payload : List Nat) (st₁ st₂ : ParserState)
    (frame : List Nat)
    (h : ((function_code = 1 ∨ function_code = 2 ∨ function_code = 3 ∨
            function_code = 4) ∧ payload.length < 1) ∨
         ((function_code = 5 ∨ function_code = 6 ∨ function_code = 15 ∨
            function_code = 16) ∧ payload.length < 4) ∨
         (function_code = 43 ∧ payload.length < 6)) :
    (∃ msg, parseFunction function_code payload = .malformed msg) ∧
    (parsePacket st₁ frame).1 = (parsePacket st₂ frame).1 := by
  refine ⟨?_, parsePacket_fst_state_independent st₁ st₂ frame⟩
  rcases h with ⟨hfc, hlen⟩ | ⟨hfc, hlen⟩ | ⟨hfc, hlen⟩
  · rcases hfc with rfl | rfl | rfl | rfl <;>
      exact ⟨"Payload too short for read response", by simp [parseFunction, hlen]⟩
  · rcases hfc with rfl | rfl | rfl | rfl
    · exact ⟨"Payload too short for write single response", by simp [parseFunction, hlen]⟩
    · exact ⟨"Payload too short for write single response", by simp [parseFunction, hlen]⟩
    · exact ⟨"Payload too short for write multiple response", by simp [parseFunction, hlen]⟩
    · exact ⟨"Payload too short for write multiple response", by simp [parseFunction, hlen]⟩
  · subst hfc
    exact ⟨"Payload too short for device identification", by simp [parseFunction, hlen]⟩

/-- Witness for C9: function code 3 with an empty payload is malformed, and
the scenario-A frame decodes identically on a fresh parser and on the state
left by that malformed frame. -/
theorem c9_witness :
    (((3 : Nat) = 1 ∨ (3 : Nat) = 2 ∨ (3 : Nat) = 3 ∨ (3 : Nat) = 4) ∧
       ([] : List Nat).length < 1 ∨
     ((3 : Nat) = 5 ∨ (3 : Nat) = 6 ∨ (3 : Nat) = 15 ∨ (3 : Nat) = 16) ∧
       ([] : List Nat).length < 4 ∨
     (3 : Nat) = 43 ∧ ([] : List Nat).length < 6) ∧
    ((∃ msg, parseFunction 3 [] = .malformed msg) ∧
     (parsePacket initState [0, 1, 0, 0, 0, 7, 1, 3, 4, 0, 1, 0, 255]).1 =
       (parsePacket (parsePacket initState [0, 1, 0, 0, 0, 2, 1, 3]).2
          [0, 1, 0, 0, 0, 7, 1, 3, 4, 0, 1, 0, 255]).1) :=
  ⟨by decide,
   c9_short_payload_malformed_and_parser_continues 3 [] initState
     (parsePacket initState [0, 1, 0, 0, 0, 2, 1, 3]).2
     [0, 1, 0, 0, 0, 7, 1, 3, 4, 0, 1, 0, 255] (by decide)⟩

end Modbus

namespace Modbus

/-- Bumping one key of the function-code dict raises the sum of its counts
by exactly one. -/
theorem sum_bump (fcs : List (Nat × Nat)) (fc : Nat) :
    ((bump fcs fc).map Prod.snd).sum = (fcs.map Prod.snd).sum + 1 := by
  induction fcs with
  | nil => rfl
  | cons kv rest ih =>
    obtain ⟨k, v⟩ := kv
    by_cases hk : k = fc
    · simp only [bump, if_pos hk, List.map_cons, List.sum_cons]
      omega
    · simp only [bump, if_neg hk, List.map_cons, List.sum_cons, ih]
      omega

/-- One statistics-loop iteration updates the function-code dict by `bump`. -/
theorem recordStep_counts (acc : StatsAcc) (p : ParsedPacket) :
    (recordStep acc p).counts = bump acc.counts p.function_code := by
  by_cases h1 : p.function_code ∈ readCodes <;>
    by_cases h2 : p.function_code ∈ writeCodes <;>
    simp [recordStep, h1, h2]

/-- One statistics-loop iteration raises `reads + writes` by at most one. -/
theorem recordStep_reads_writes (acc : StatsAcc) (p : ParsedPacket) :
    (recordStep acc p).reads + (recordStep acc p).writes ≤
      acc.reads + acc.writes + 1 := by
  by_cases h1 : p.function_code ∈ readCodes <;>
    by_cases h2 : p.function_code ∈ writeCodes <;>
    simp [recordStep, h1, h2] <;> omega

/-- Over the whole statistics loop, the function-code counts sum to the
number of packets processed. -/
theorem foldl_counts_sum (l : List ParsedPacket) :
    ∀ acc : StatsAcc,
      (((l.foldl recordStep acc).counts).map Prod.snd).sum =
        ((acc.counts).map Prod.snd).sum + l.length := by
  induction l with
  | nil => intro acc; simp
  | cons p ps ih =>
    intro acc
    simp only [List.foldl_cons, List.length_cons]
    rw [ih (recordStep acc p), recordStep_counts, sum_bump]
    omega

/-- Over the whole statistics loop, `reads + writes` grows by at most the
number of packets processed. -/
theorem foldl_reads_writes (l : List ParsedPacket) :
    ∀ acc : StatsAcc,
      (l.foldl recordStep acc).reads + (l.foldl recordStep acc).writes ≤
        acc.reads + acc.writes + l.length := by
  induction l with
  | nil => intro acc; simp
  | cons p ps ih =>
    intro acc
    simp only [List.foldl_cons, List.length_cons]
    have h1 := ih (recordStep acc p)
    have h2 := recordStep_reads_writes acc p
    omega

/-- `parse_packet` keeps `transaction_count` equal to the number of stored
packets (both are updated together, or neither is). -/
theorem parsePacket_count_step (st : ParserState) (f : List Nat)
    (h : st.transaction_count = st.packets.length) :
    (parsePacket st f).2.transaction_count =
      (parsePacket st f).2.packets.length := by
  unfold parsePacket
  by_cases h8 : f.length < 8
  · rw [if_pos h8]; exact h
  · rw [if_neg h8]
    by_cases hp : protocolId f ≠ 0
    · rw [if_pos hp]; exact h
    · rw [if_neg hp]
      show st.transaction_count + 1 = (st.packets ++ [mkParsedPacket f]).length
      rw [List.length_append]
      simp only [List.length_cons, List.length_nil]
      omega

/-- On every run from a fresh parser, `transaction_count` equals the number
of stored packets. -/
theorem runFrames_count_eq_length (frames : List (List Nat)) :
    (runFrames frames).transaction_count = (runFrames frames).packets.length := by
  suffices h : ∀ (fs : List (List Nat)) (st : ParserState),
      st.transaction_count = st.packets.length →
      (fs.foldl (fun s f => (parsePacket s f).2) st).transaction_count =
        (fs.foldl (fun s f => (parsePacket s f).2) st).packets.length from
    h frames initState rfl
  intro fs
  induction fs with
  | nil => intro st h; exact h
  | cons f fs ih =>
    intro st h
    simp only [List.foldl_cons]
    exact ih _ (parsePacket_count_step st f h)

/-- Claim C6: after any sequence of `parse_packet` calls on one parser
instance, the statistics snapshot has its per-function-code counts summing
to `transaction_count`, and `read_operations + write_operations` at most
`transaction_count`. -/
theorem c6_statistics_sums (frames : List (List Nat)) :
    (getStatistics (runFrames frames)).fcSum =
      (getStatistics (runFrames frames)).transactionCount ∧
    (getStatistics (runFrames frames)).readOps +
        (getStatistics (runFrames frames)).writeOps ≤
      (getStatistics (runFrames frames)).transactionCount := by
  have hinv := runFrames_count_eq_length frames
  unfold getStatistics
  by_cases hpk : (runFrames frames).packets = []
  · rw [if_pos hpk]
    exact ⟨rfl, Nat.le_refl 0⟩
  · rw [if_neg hpk]
    constructor
    · show ((((runFrames frames).packets.foldl recordStep ⟨[], [], 0, 0⟩).counts).map
          Prod.snd).sum = (runFrames frames).transaction_count
      rw [foldl_counts_sum]
      simp only [List.map_nil, List.sum_nil, Nat.zero_add]
      exact hinv.symm
    · show ((runFrames frames).packets.foldl recordStep ⟨[], [], 0, 0⟩).reads +
          ((runFrames frames).packets.foldl recordStep ⟨[], [], 0, 0⟩).writes ≤
          (runFrames frames).transaction_count
      have h := foldl_reads_writes (runFrames frames).packets ⟨[], [], 0, 0⟩
      have hb : (⟨[], [], 0, 0⟩ : StatsAcc).reads = 0 := rfl
      have hc : (⟨[], [], 0, 0⟩ : StatsAcc).writes = 0 := rfl
      omega

/-- The code-43 object loop never yields more objects than `object_count`
iterations. -/
theorem parseObjects_length_le (payload : List Nat) :
    ∀ (k offset : Nat), (parseObjects payload offset k).length ≤ k := by
  intro k
  induction k with
  | zero => intro offset; simp [parseObjects]
  | succ n ih =>
    intro offset
    unfold parseObjects
    split
    · simp
    · split
      · simp
      · simp only [List.length_cons]
        exact Nat.succ_le_succ (ih _)

/-- Every object the code-43 loop yields was sliced wholly from within the
payload: its value is the (ascii-replaced) slice at some in-bounds offset,
and the slice really holds its full declared length. -/
theorem parseObjects_in_bounds (payload : List Nat) :
    ∀ (k offset : Nat), ∀ o ∈ parseObjects payload offset k,
      ∃ s l, s + l ≤ payload.length ∧
        o.2 = asciiReplace ((payload.drop s).take l) ∧
        ((payload.drop s).take l).length = l := by
  intro k
  induction k with
  | zero => intro offset o ho; simp [parseObjects] at ho
  | succ n ih =>
    intro offset o ho
    unfold parseObjects at ho
    by_cases h1 : payload.length ≤ offset + 1
    · rw [if_pos h1] at ho; simp at ho
    · rw [if_neg h1] at ho
      by_cases h2 : payload.length < offset + 2 + payload.getD (offset + 1) 0
      · rw [if_pos h2] at ho; simp at ho
      · rw [if_neg h2] at ho
        rcases List.mem_cons.mp ho with rfl | hmem
        · exact ⟨offset + 2, payload.getD (offset + 1) 0, by omega, rfl,
            by rw [List.length_take, List.length_drop]; omega⟩
        · exact ih _ o hmem

/-- Claim C8: for function code 43 with a payload of at least 6 bytes,
object decoding never reads past the payload: every decoded object's value
is a fully in-bounds slice of the payload, and at most `object_count`
objects are returned (decoding stops early on overrun, keeping exactly the
objects fully decoded so far). -/
theorem c8_device_id_objects_in_bounds (payload : List Nat)
    (h6 : 6 ≤ payload.length) :
    parseFunction 43 payload =
      .deviceId (payload.getD 0 0) (payload.getD 1 0) (payload.getD 2 0)
        (payload.getD 3 0) (payload.getD 4 0)
        (parseObjects payload 6 (payload.getD 5 0)) ∧
    (parseObjects payload 6 (payload.getD 5 0)).length ≤ payload.getD 5 0 ∧
    ∀ o ∈ parseObjects payload 6 (payload.getD 5 0),
      ∃ s l, s + l ≤ payload.length ∧
        o.2 = asciiReplace ((payload.drop s).take l) ∧
        ((payload.drop s).take l).length = l := by
  have h6' : ¬ payload.length < 6 := by omega
  exact ⟨by simp [parseFunction, h6'], parseObjects_length_le payload _ 6,
    fun o ho => parseObjects_in_bounds payload _ 6 o ho⟩

/-- Witness for C8 at the scenario-D payload: `object_count = 2` but only
one complete object present (`id 0, len 3, "ABC"`, then `id 1, len 10` with
no bytes left) — exactly one object is decoded. -/
theorem c8_witness :
    6 ≤ ([14, 1, 1, 0, 0, 2, 0, 3, 65, 66, 67, 1, 10] : List Nat).length ∧
    parseFunction 43 [14, 1, 1, 0, 0, 2, 0, 3, 65, 66, 67, 1, 10] =
      .deviceId 14 1 1 0 0 [(0, [65, 66, 67])] ∧
    (parseFunction 43 [14, 1, 1, 0, 0, 2, 0, 3, 65, 66, 67, 1, 10] =
       .deviceId (([14, 1, 1, 0, 0, 2, 0, 3, 65, 66, 67, 1, 10] : List Nat).getD 0 0)
         (([14, 1, 1, 0, 0, 2, 0, 3, 65, 66, 67, 1, 10] : List Nat).getD 1 0)
         (([14, 1, 1, 0, 0, 2, 0, 3, 65, 66, 67, 1, 10] : List Nat).getD 2 0)
         (([14, 1, 1, 0, 0, 2, 0, 3, 65, 66, 67, 1, 10] : List Nat).getD 3 0)
         (([14, 1, 1, 0, 0, 2, 0, 3, 65, 66, 67, 1, 10] : List Nat).getD 4 0)
         (parseObjects [14, 1, 1, 0, 0, 2, 0, 3, 65, 66, 67, 1, 10] 6
           (([14, 1, 1, 0, 0, 2, 0, 3, 65, 66, 67, 1, 10] : List Nat).getD 5 0)) ∧
     (parseObjects [14, 1, 1, 0, 0, 2, 0, 3, 65, 66, 67, 1, 10] 6
        (([14, 1, 1, 0, 0, 2, 0, 3, 65, 66, 67, 1, 10] : List Nat).getD 5 0)).length ≤
       ([14, 1, 1, 0, 0, 2, 0, 3, 65, 66, 67, 1, 10] : List Nat).getD 5 0 ∧
     ∀ o ∈ parseObjects [14, 1, 1, 0, 0, 2, 0, 3, 65, 66, 67, 1, 10] 6
         (([14, 1, 1, 0, 0, 2, 0, 3, 65, 66, 67, 1, 10] : List Nat).getD 5 0),
       ∃ s l, s + l ≤ ([14, 1, 1, 0, 0, 2, 0, 3, 65, 66, 67, 1, 10] : List Nat).length ∧
         o.2 = asciiReplace
           ((([14, 1, 1, 0, 0, 2, 0, 3, 65, 66, 67, 1, 10] : List Nat).drop s).take l) ∧
         ((([14, 1, 1, 0, 0, 2, 0, 3, 65, 66, 67, 1, 10] : List Nat).drop s).take l).length = l) :=
  ⟨by decide, by rfl, c8_device_id_objects_in_bounds _ (by decide)⟩

end Modbus

namespace Modbus

/-- In a step-2 index range, every index kept by a guard demanding two more
in-bounds bytes forces `2 * kept + start ≤ L`: the kept indices are
strictly increasing by at least 2 and the last one is at most `L - 2`. -/
theorem filterMap_range'_pair_bound {α : Type} (f : Nat → Option α) (L : Nat)
    (hf : ∀ i, (∃ a, f i = some a) → i + 2 ≤ L) :
    ∀ m s : Nat,
      ((List.range' s m 2).filterMap f).length = 0 ∨
      2 * ((List.range' s m 2).filterMap f).length + s ≤ L := by
  intro m
  induction m with
  | zero => intro s; left; rfl
  | succ n ih =>
    intro s
    rw [List.range'_succ]
    cases hfs : f s with
    | none =>
      rw [List.filterMap_cons_none hfs]
      rcases ih (s + 2) with h | h
      · left; exact h
      · right; omega
    | some a =>
      rw [List.filterMap_cons_some hfs]
      right
      have hs2 : s + 2 ≤ L := hf s ⟨a, hfs⟩
      rcases ih (s + 2) with h | h
      · rw [List.length_cons, h]; omega
      · rw [List.length_cons]; omega

/-- The codes-3/4 family never consumes more bytes than the payload holds:
the `byte_count` byte plus two bytes per decoded word fit inside it. -/
theorem wordValues_consumed_le (payload : List Nat) (byte_count : Nat)
    (h1 : 1 ≤ payload.length) :
    1 + 2 * (wordValues payload byte_count).length ≤ payload.length := by
  unfold wordValues
  rcases filterMap_range'_pair_bound
      (fun i =>
        if i + 1 < payload.length then
          some ((payload.getD i 0 <<< 8) ||| payload.getD (i + 1) 0)
        else none)
      payload.length
      (fun i hi => by
        rcases hi with ⟨a, ha⟩
        simp only [] at ha
        by_cases hc : i + 1 < payload.length
        · omega
        · rw [if_neg hc] at ha; exact Option.noConfusion ha)
      (min (1 + byte_count) payload.length / 2) 1 with h | h
  · rw [h]; omega
  · omega

/-- The code-43 object loop never accounts for bytes beyond the payload:
starting at `offset`, the fully decoded objects fit between `offset` and
the payload's end. -/
theorem parseObjects_objectBytes_le (payload : List Nat) :
    ∀ (k offset : Nat),
      parseObjects payload offset k = [] ∨
      offset + objectBytes (parseObjects payload offset k) ≤ payload.length := by
  intro k
  induction k with
  | zero => intro offset; left; rfl
  | succ n ih =>
    intro offset
    unfold parseObjects
    by_cases h1 : payload.length ≤ offset + 1
    · rw [if_pos h1]; left; rfl
    · rw [if_neg h1]
      by_cases h2 : payload.length < offset + 2 + payload.getD (offset + 1) 0
      · rw [if_pos h2]; left; rfl
      · rw [if_neg h2]
        right
        have hval : (asciiReplace ((payload.drop (offset + 2)).take
            (payload.getD (offset + 1) 0))).length = payload.getD (offset + 1) 0 := by
          unfold asciiReplace
          rw [List.length_map, List.length_take, List.length_drop]
          omega
        rcases ih (offset + 2 + payload.getD (offset + 1) 0) with h | h
        · rw [h]
          simp only [objectBytes, List.map_cons, List.map_nil, List.sum_cons,
            List.sum_nil]
          omega
        · simp only [objectBytes, List.map_cons, List.sum_cons] at h ⊢
          omega

/-- For every function family, the consumed byte count never exceeds the
payload's length. -/
theorem consumedBytes_le (function_code : Nat) (payload : List Nat) :
    consumedBytes function_code payload ≤ payload.length := by
  unfold consumedBytes
  by_cases h1 : function_code = 1 ∨ function_code = 2 ∨ function_code = 3 ∨
      function_code = 4
  · rw [if_pos h1]
    by_cases hl : payload.length < 1
    · exact le_of_eq (if_pos hl)
    · rw [if_neg hl]
      by_cases hb : function_code = 1 ∨ function_code = 2
      · rw [if_pos hb]; omega
      · rw [if_neg hb]
        exact wordValues_consumed_le payload (payload.getD 0 0) (by omega)
  · rw [if_neg h1]
    by_cases h2 : function_code = 5 ∨ function_code = 6
    · rw [if_pos h2]
      by_cases hl : payload.length < 4
      · exact le_of_eq (if_pos hl)
      · rw [if_neg hl]; omega
    · rw [if_neg h2]
      by_cases h3 : function_code = 15 ∨ function_code = 16
      · rw [if_pos h3]
        by_cases hl : payload.length < 4
        · exact le_of_eq (if_pos hl)
        · rw [if_neg hl]; omega
      · rw [if_neg h3]
        by_cases h4 : function_code = 43
        · rw [if_pos h4]
          by_cases hl : payload.length < 6
          · exact le_of_eq (if_pos hl)
          · rw [if_neg hl]
            rcases parseObjects_objectBytes_le payload (payload.getD 5 0) 6 with h | h
            · rw [h]
              simp only [objectBytes, List.map_nil, List.sum_nil]
              omega
            · exact h
        · exact le_of_eq (if_neg h4)

/-- Counterexample to claim C2 as stated, one concrete frame per failure
mode of `length = payload_byte_length + 2`.  First, declared length 100 on
a 13-byte fc-3 frame: the stored transaction keeps `length = 100` while
the family consumed all 5 remaining bytes, and `100 ≠ 5 + 2`.  Second, a
fitting fc-5 frame `00 01 00 00 00 08 01 05 00 10 FF 00 AA AA`: the slice
has 6 bytes but the write-single family consumes only 4 (address and
value), and the stored `length = 8 ≠ 4 + 2`.  Third, a fitting frame with
declared length 0: the slice is empty, the payload is `Malformed` with raw
remainder 0 bytes, and the stored `length = 0 ≠ 0 + 2`. -/
theorem c2_counterexample :
    ((parsePacket initState [0, 1, 0, 0, 0, 100, 1, 3, 4, 0, 1, 0, 255]).1 =
        .parsed (mkParsedPacket [0, 1, 0, 0, 0, 100, 1, 3, 4, 0, 1, 0, 255]) ∧
      (mkParsedPacket [0, 1, 0, 0, 0, 100, 1, 3, 4, 0, 1, 0, 255]).length = 100 ∧
      (mkParsedPacket [0, 1, 0, 0, 0, 100, 1, 3, 4, 0, 1, 0, 255]).payload =
        .readResponse 4 [1, 255] ∧
      consumedBytes 3 (payloadSlice [0, 1, 0, 0, 0, 100, 1, 3, 4, 0, 1, 0, 255]) = 5 ∧
      (100 : Nat) ≠ 5 + 2) ∧
    ((parsePacket initState [0, 1, 0, 0, 0, 8, 1, 5, 0, 16, 255, 0, 170, 170]).1 =
        .parsed (mkParsedPacket [0, 1, 0, 0, 0, 8, 1, 5, 0, 16, 255, 0, 170, 170]) ∧
      (mkParsedPacket [0, 1, 0, 0, 0, 8, 1, 5, 0, 16, 255, 0, 170, 170]).length = 8 ∧
      (mkParsedPacket [0, 1, 0, 0, 0, 8, 1, 5, 0, 16, 255, 0, 170, 170]).payload =
        .writeSingle 16 1 ∧
      payloadSlice [0, 1, 0, 0, 0, 8, 1, 5, 0, 16, 255, 0, 170, 170] =
        [0, 16, 255, 0, 170, 170] ∧
      consumedBytes 5 (payloadSlice [0, 1, 0, 0, 0, 8, 1, 5, 0, 16, 255, 0, 170, 170]) = 4 ∧
      (8 : Nat) ≠ 4 + 2) ∧
    ((parsePacket initState [0, 1, 0, 0, 0, 0, 1, 5]).1 =
        .parsed (mkParsedPacket [0, 1, 0, 0, 0, 0, 1, 5]) ∧
      (mkParsedPacket [0, 1, 0, 0, 0, 0, 1, 5]).length = 0 ∧
      payloadSlice [0, 1, 0, 0, 0, 0, 1, 5] = [] ∧
      (mkParsedPacket [0, 1, 0, 0, 0, 0, 1, 5]).payload =
        .malformed ("Payload too short for write single response") ∧
      consumedBytes 5 (payloadSlice [0, 1, 0, 0, 0, 0, 1, 5]) = 0 ∧
      (0 : Nat) ≠ 0 + 2) :=
  ⟨⟨rfl, rfl, rfl, rfl, by decide⟩,
   ⟨rfl, rfl, rfl, rfl, rfl, by decide⟩,
   ⟨rfl, rfl, rfl, rfl, rfl, by decide⟩⟩

/-- Claim C2, amended: every frame of at least 8 bytes with protocol id 0
is stored with the raw declared `length`, and the invariant
`length = payload_byte_length + 2` (with `payload_byte_length` the bytes
actually consumed by the function family, or the raw remainder for
`Unknown`/`Malformed`) holds if and only if the declared length is at
least 2, fits the frame (`8 + length - 2 ≤ frame size`), and the family
consumes the entire payload slice.  It fails exactly on the remaining
frames: declared length overrunning the frame, declared length below 2, or
a slice carrying bytes beyond what the family consumes. -/
theorem c2_length_consumed_iff (st : ParserState) (packet : List Nat)
    (h8 : 8 ≤ packet.length) (hp : protocolId packet = 0) :
    (parsePacket st packet).1 = .parsed (mkParsedPacket packet) ∧
    ((mkParsedPacket packet).length =
        consumedBytes (packet.getD 7 0) (payloadSlice packet) + 2 ↔
      2 ≤ declaredLength packet ∧
      8 + declaredLength packet - 2 ≤ packet.length ∧
      consumedBytes (packet.getD 7 0) (payloadSlice packet) =
        (payloadSlice packet).length) := by
  have hL : (mkParsedPacket packet).length = declaredLength packet := rfl
  have hcle : consumedBytes (packet.getD 7 0) (payloadSlice packet) ≤
      (payloadSlice packet).length := consumedBytes_le _ _
  refine ⟨by rw [parsePacket_success st packet h8 hp], ?_⟩
  by_cases hfit : 8 + declaredLength packet - 2 ≤ packet.length
  · have hsl : (payloadSlice packet).length = declaredLength packet - 2 := by
      unfold payloadSlice
      rw [if_pos hfit, List.length_take, List.length_drop]
      omega
    constructor
    · intro h
      exact ⟨by omega, hfit, by omega⟩
    · rintro ⟨h2, -, hc⟩
      omega
  · have hsl : (payloadSlice packet).length = packet.length - 8 := by
      unfold payloadSlice
      rw [if_neg hfit, List.length_drop]
    constructor
    · intro h
      exfalso
      omega
    · rintro ⟨-, hfit', -⟩
      exact absurd hfit' hfit

/-- Witness for the amended C2 at the scenario-A frame, where the invariant
holds: declared length 7 fits the 13-byte frame and the fc-3 family
consumes all 5 slice bytes. -/
theorem c2_witness :
    8 ≤ ([0, 1, 0, 0, 0, 7, 1, 3, 4, 0, 1, 0, 255] : List Nat).length ∧
    protocolId [0, 1, 0, 0, 0, 7, 1, 3, 4, 0, 1, 0, 255] = 0 ∧
    ((parsePacket initState [0, 1, 0, 0, 0, 7, 1, 3, 4, 0, 1, 0, 255]).1 =
       .parsed (mkParsedPacket [0, 1, 0, 0, 0, 7, 1, 3, 4, 0, 1, 0, 255]) ∧
     ((mkParsedPacket [0, 1, 0, 0, 0, 7, 1, 3, 4, 0, 1, 0, 255]).length =
         consumedBytes (([0, 1, 0, 0, 0, 7, 1, 3, 4, 0, 1, 0, 255] : List Nat).getD 7 0)
           (payloadSlice [0, 1, 0, 0, 0, 7, 1, 3, 4, 0, 1, 0, 255]) + 2 ↔
       2 ≤ declaredLength [0, 1, 0, 0, 0, 7, 1, 3, 4, 0, 1, 0, 255] ∧
       8 + declaredLength [0, 1, 0, 0, 0, 7, 1, 3, 4, 0, 1, 0, 255] - 2 ≤
         ([0, 1, 0, 0, 0, 7, 1, 3, 4, 0, 1, 0, 255] : List Nat).length ∧
       consumedBytes (([0, 1, 0, 0, 0, 7, 1, 3, 4, 0, 1, 0, 255] : List Nat).getD 7 0)
           (payloadSlice [0, 1, 0, 0, 0, 7, 1, 3, 4, 0, 1, 0, 255]) =
         (payloadSlice [0, 1, 0, 0, 0, 7, 1, 3, 4, 0, 1, 0, 255]).length)) :=
  ⟨by decide, by decide,
   c2_length_consumed_iff initState _ (by decide) (by decide)⟩

end Modbus
